import Mathlib

/-!
Verification development for the qmk-hermit repository.

The definitions below are shallow embeddings of the Python functions in
`qmk_hermit.py`, `qmk_hermit/build.py` and `qmk_hermit/__main__.py`.
Pure string/list logic is translated directly; filesystem access is made
explicit by passing file contents or existence predicates as arguments.
-/

namespace QmkHermit

/-! ## Python string primitives -/

/-- Characters stripped by Python `str.rstrip()` (whitespace). -/
def isPySpace (c : Char) : Bool :=
  c == ' ' || c == '\t' || c == '\n' || c == '\r' || c == '\x0b' || c == '\x0c'

/-- Python `line.rstrip()`: drop trailing whitespace. -/
def pyRstrip (s : String) : String :=
  String.mk ((s.toList.reverse.dropWhile isPySpace).reverse)

/-- Python `line.rstrip over backslashes`: `line.rstrip` with argument a backslash,
dropping every trailing backslash. -/
def rstripBackslash (s : String) : String :=
  String.mk ((s.toList.reverse.dropWhile (· == '\\')).reverse)

/-- Python `line.endswith` with a single backslash argument. -/
def endsWithBackslash (s : String) : Bool :=
  s.toList.getLast? == some '\\'

/-! ## makefile_lines (qmk_hermit.py lines 333-354, build.py lines 141-162;
the two copies are textually identical) -/

/-- Inner `stripped_lines` generator body applied to one physical line:
`if '#' in line: line = line[:line.index('#')]` then `line.rstrip()`.
Taking characters up to the first `#` is the same whether or not a `#` occurs. -/
def strippedLine (s : String) : String :=
  pyRstrip (String.mk (s.toList.takeWhile (· ≠ '#')))

/-- Loop body of the `continued_lines` generator, with `line` the physical line
read last, `cont` the `cont_line` accumulator, and the remaining input.
The source computes `cont_line` (resetting it to `line.rstrip` of backslashes on
every inner iteration and appending a newline plus the next physical line) but
then executes `yield line`, so `cont_line` is dead: only the final physical line
of a continuation group is ever emitted, and a group cut off by end of input
emits nothing (the inner `next` raises StopIteration which ends the generator). -/
def continuedFrom (line _cont : String) : List String → List String
  | [] => if endsWithBackslash line then [] else [line]
  | l :: ls =>
    if endsWithBackslash line then
      continuedFrom l (rstripBackslash line ++ "\n" ++ l) ls
    else
      line :: continuedFrom l l ls

/-- The `continued_lines` generator over a finite line list. -/
def continuedLines : List String → List String
  | [] => []
  | l :: ls => continuedFrom l l ls

/-- `makefile_lines(lines)`: comment-strip and rstrip each physical line, then
run the continuation logic. -/
def makefile_lines (lines : List String) : List String :=
  continuedLines (lines.map strippedLine)

/-! ## The assignment-line grammar of parse_rulesmk
(`(\w+)\s*(=|:=|\+=|\?=)\s*(.+)` compiled in qmk_hermit.py line 323 and
build.py line 131, matched with `re.match`) -/

/-- The four assignment operators, in the alternation order of the pattern. -/
inductive MkOp where
  | eq
  | coloneq
  | pluseq
  | qeq
deriving DecidableEq, Repr

/-- Python regex `\w` restricted to the ASCII inputs these files contain. -/
def isWordChar (c : Char) : Bool :=
  c.isAlphanum || c == '_'

/-- One backtracking attempt of `\s*(.+)` at a fixed amount `k` of consumed
whitespace: the remainder must start with a character other than a newline,
and `.+` greedily takes everything up to the next newline or the end. -/
def tryVal (r : List Char) (k : Nat) : Option (List Char) :=
  match r.drop k with
  | [] => none
  | c :: cs => if c = '\n' then none else some ((c :: cs).takeWhile (· ≠ '\n'))

/-- Greedy `\s*` with backtracking: try the largest whitespace prefix first,
then shorter ones, until `.+` can match. -/
def valSearch (r : List Char) : Nat → Option (List Char)
  | 0 => tryVal r 0
  | k + 1 =>
    match tryVal r (k + 1) with
    | some v => some v
    | none => valSearch r k

/-- Match `\s*(.+)` against the characters following the operator. -/
def matchVal (r : List Char) : Option (List Char) :=
  valSearch r (r.takeWhile isPySpace).length

/-- `re.match` of the assignment pattern against one logical line, returning
the groups `(name, op, value)` when the line is an assignment.  `\w+` takes the
maximal word prefix (backtracking it can never help because the operator
alternatives all start with non-word, non-space characters), `\s*` skips
whitespace, and the alternation tries `=`, `:=`, `+=`, `?=` in pattern order. -/
def matchAssign (line : String) : Option (String × MkOp × String) :=
  let cs := line.toList
  let name := cs.takeWhile isWordChar
  if name.isEmpty then none
  else
    let afterName := (cs.dropWhile isWordChar).dropWhile isPySpace
    let withVal := fun (op : MkOp) (r : List Char) =>
      (matchVal r).map fun v => (String.mk name, op, String.mk v)
    match afterName with
    | '=' :: r => withVal MkOp.eq r
    | ':' :: '=' :: r => withVal MkOp.coloneq r
    | '+' :: '=' :: r => withVal MkOp.pluseq r
    | '?' :: '=' :: r => withVal MkOp.qeq r
    | _ => none

/-! ## The parsed-rules mapping

A Python dict preserves insertion order and may store `None` (the direct entry
point stores `None` through its `?=` lambda), so values are `Option String`
with `none` standing for Python `None`. -/

/-- Insertion-ordered mapping from variable names to Python values. -/
abbrev RulesMap : Type := List (String × Option String)

/-- Python `name in parsed` / `parsed[name]` combined: `some v` when the key is
present with stored value `v` (itself possibly Python `None`), `none` when the
key is absent. -/
def pyLookup : RulesMap → String → Option (Option String)
  | [], _ => none
  | (k, v) :: m, key => if k = key then some v else pyLookup m key

/-- Python `parsed[name] = v`: replace in place if present, else append. -/
def setKey : RulesMap → String → Option String → RulesMap
  | [], key, v => [(key, v)]
  | (k, w) :: m, key, v =>
    if k = key then (k, v) :: m else (k, w) :: setKey m key v

/-- Python truthiness of a string-or-None value. -/
def truthy : Option String → Bool
  | some s => !s.isEmpty
  | none => false

/-- The `ops` table shared by both copies of `parse_rulesmk`:
`=` and `:=` replace, `+=` appends with a space when the old value is truthy,
and `?=` is `lambda old, new: new if old else old`. -/
def applyOp : MkOp → Option String → String → Option String
  | MkOp.eq, _, new => some new
  | MkOp.coloneq, _, new => some new
  | MkOp.pluseq, old, new =>
    if truthy old then some (old.getD "" ++ " " ++ new) else some new
  | MkOp.qeq, old, new => if truthy old then some new else old

/-- One line of `parse_rulesmk` in qmk_hermit.py (line 328):
`parsed[name] = ops[op](parsed.get(name), val)` where `parsed.get(name)`
yields Python `None` both for an absent key and for a stored `None`. -/
def stepHermit (m : RulesMap) (line : String) : RulesMap :=
  match matchAssign line with
  | some (name, op, val) =>
    let old : Option String :=
      match pyLookup m name with
      | some v => v
      | none => none
    setKey m name (applyOp op old val)
  | none => m

/-- One line of `parse_rulesmk` in build.py (line 136):
`parsed[name] = ops[op](parsed[name], val) if name in parsed else val`. -/
def stepBuild (m : RulesMap) (line : String) : RulesMap :=
  match matchAssign line with
  | some (name, op, val) =>
    match pyLookup m name with
    | some old => setKey m name (applyOp op old val)
    | none => setKey m name (some val)
  | none => m

/-- `parse_rulesmk(lines, initial)` of qmk_hermit.py (lines 313-330). -/
def parse_rulesmk_hermit (lines : List String) (initial : RulesMap) : RulesMap :=
  (makefile_lines lines).foldl stepHermit initial

/-- `parse_rulesmk(lines, initial)` of qmk_hermit/build.py (lines 121-138). -/
def parse_rulesmk_build (lines : List String) (initial : RulesMap) : RulesMap :=
  (makefile_lines lines).foldl stepBuild initial

/-! ## parse_keyboard_rules and the candidate file chain
(qmk_hermit.py lines 299-310, build.py lines 106-117)

Paths are modelled as lists of components; pathlib collapses the `.` parent
of a relative path, which the empty component list represents. -/

/-- `Path(p).parents` for a path given as its component list: every proper
prefix, from the immediate parent down to the empty path (`.` for a relative
path, `/` for an absolute one).  The recursion is fuelled by the length, which
is exactly the number of parents produced. -/
def pyParentsAux : Nat → List String → List (List String)
  | 0, _ => []
  | _ + 1, [] => []
  | fuel + 1, parts => parts.dropLast :: pyParentsAux fuel parts.dropLast

/-- `Path(p).parents` as a list of component lists. -/
def pyParents (parts : List String) : List (List String) :=
  pyParentsAux parts.length parts

/-- The candidate `rules.mk` paths consulted by `find_rules` inside
`parse_keyboard_rules` in qmk_hermit.py:
`qmk_home / 'keyboards' / parent / 'rules.mk'` for
`parent in reversed([keyboard_name, *Path(keyboard_name).parents])`,
expressed relative to the QMK root. -/
def find_rules_candidates (kbParts : List String) : List (List String) :=
  ((kbParts :: pyParents kbParts).reverse).map
    (fun p => ("keyboards" :: p) ++ ["rules.mk"])

/-- The candidate `rules.mk` paths consulted by `find_rules` inside
`parse_keyboard_rules` in build.py: `parent / 'rules.mk'` for
`parent in reversed([keyboard_dir, *keyboard_dir.parents])` where
`keyboard_dir` is the absolute staged keyboard directory. -/
def build_rules_candidates (keyboardDir : List String) : List (List String) :=
  ((keyboardDir :: pyParents keyboardDir).reverse).map (fun p => p ++ ["rules.mk"])

/-- `find_rules` of qmk_hermit.py: keep, in order, the candidates for which
`rules.is_file()` holds; nonexistent candidates are skipped. -/
def find_rules (existsFile : List String → Bool) (kbParts : List String) :
    List (List String) :=
  (find_rules_candidates kbParts).filter existsFile

/-- `parse_keyboard_rules` of qmk_hermit.py: fold `parse_rulesmk` over the
contents of the existing candidate files, in candidate order.  The filesystem
is passed in as a partial map from a path to the lines of the file there. -/
def parse_keyboard_rules (fs : List String → Option (List String))
    (kbParts : List String) : RulesMap :=
  ((find_rules_candidates kbParts).filterMap fs).foldl
    (fun m lines => parse_rulesmk_hermit lines m) []

/-! ## make_target (qmk_hermit.py lines 154-176; build.py lines 50-72 is the
same logic with `args.keyboard`/`args.layout` in place of the staged names) -/

/-- The possible values of `args.flash`: `False`, `True` (bare `--flash`),
or a side `'l'` / `'r'`. -/
inductive FlashArg where
  | noflash
  | plain
  | left
  | right
deriving DecidableEq, Repr

/-- Substring containment, Python `needle in hay` on strings. -/
def occursIn (needle : List Char) : List Char → Bool
  | [] => needle.isEmpty
  | c :: cs => needle.isPrefixOf (c :: cs) || occursIn needle cs

/-- Python `needle in hay` for strings. -/
def containsSub (hay needle : String) : Bool :=
  occursIn needle.toList hay.toList

/-- Python `str.lower` on the ASCII strings involved here. -/
def pyLower (s : String) : String :=
  String.mk (s.toList.map Char.toLower)

/-- Python `str.lstrip` with a colon argument: drop leading colons. -/
def lstripColon (s : String) : String :=
  String.mk (s.toList.dropWhile (· == ':'))

/-- Python `sep.join(iterable)`. -/
def pyJoin (sep : String) : List String → String
  | [] => ""
  | [x] => x
  | x :: y :: xs => x ++ sep ++ pyJoin sep (y :: xs)

/-- `keyboard_rules.get('BOOTLOADER', '')`: the stored value when the key is
present (which can be Python `None`), the default `''` otherwise. -/
def bootloaderLookup (rules : RulesMap) : Option String :=
  match pyLookup rules "BOOTLOADER" with
  | some v => v
  | none => some ""

/-- The warning message logged when no side-specific flash target is known. -/
def noSplitWarning (bootloader : String) : String :=
  "no left/right specific flash target for `" ++ bootloader ++ "` bootloader"

/-- The `make_target` generator: the fragment list together with the warnings
emitted while producing it.  When flashing names a side, the code evaluates
`keyboard_rules.get('BOOTLOADER', '').lower()`; if the stored value is Python
`None`, calling `.lower()` on it raises, modelled by `Except.error`. -/
def make_target (kb km : String) (flash : FlashArg) (rules : RulesMap)
    (extraTargets : List String) : Except String (List String × List String) :=
  let extras := extraTargets.map lstripColon
  let side := fun (frag : String) =>
    match bootloaderLookup rules with
    | none => Except.error "AttributeError: NoneType has no attribute lower"
    | some b =>
      let bl := pyLower b
      if containsSub bl "dfu" then
        Except.ok ([kb, km, "dfu-split-" ++ frag] ++ extras, [])
      else if containsSub bl "caterina" then
        Except.ok ([kb, km, "avrdude-split-" ++ frag] ++ extras, [])
      else
        Except.ok ([kb, km, "flash"] ++ extras, [noSplitWarning bl])
  match flash with
  | FlashArg.left => side "left"
  | FlashArg.right => side "right"
  | FlashArg.plain => Except.ok ([kb, km, "flash"] ++ extras, [])
  | FlashArg.noflash => Except.ok ([kb, km] ++ extras, [])

/-- The final target string handed to make: `':'.join(make_target())`. -/
def make_target_str (kb km : String) (flash : FlashArg) (rules : RulesMap)
    (extraTargets : List String) : Except String (String × List String) :=
  (make_target kb km flash rules extraTargets).map fun p => (pyJoin ":" p.1, p.2)

/-! ## Keyboard staging renames
(`renames` inside `setup_temporary_keyboard`, qmk_hermit.py lines 241-254;
`user_keyboard_files` in __main__.py lines 189-208 has the identical body) -/

/-- Separator class `[-_ ]` of the keymap filename pattern. -/
def isSepChar (c : Char) : Bool :=
  c == '-' || c == '_' || c == ' '

/-- One backtracking attempt of `(.+)\.(c|h)` inside the optional group at a
candidate split index `j`: the capture `region.take j` must be nonempty and
newline-free, followed by a dot and then `c` or `h` (trailing text is allowed,
`re.match` does not anchor the end). -/
def keymapGroupAt (region : List Char) (j : Nat) : Option (String × String) :=
  match region.drop j with
  | '.' :: e :: _ =>
    if (e = 'c' ∨ e = 'h') ∧ 1 ≤ j ∧ (region.take j).all (· ≠ '\n') then
      some (String.mk (region.take j), String.mk [e])
    else none
  | _ => none

/-- Greedy `(.+)` with backtracking: try the largest split index first. -/
def keymapGroupSearch (region : List Char) : Nat → Option (String × String)
  | 0 => none
  | j + 1 =>
    match keymapGroupAt region (j + 1) with
    | some r => some r
    | none => keymapGroupSearch region j

/-- Greedy `[-_ ]+` with backtracking: try `k` separator characters, largest
first, then match `(.+)\.(c|h)` in the remaining region. -/
def keymapSepSearch (rest : List Char) : Nat → Option (String × String)
  | 0 => none
  | k + 1 =>
    let region := rest.drop (k + 1)
    match keymapGroupSearch region (region.length - 1) with
    | some r => some r
    | none => keymapSepSearch rest k

/-- `re.match(r'keymap(?:[-_ ]+(.+))?\.(c|h)', fn)`, returning
`(group(1), group(2))` with `none` for an unused optional group.  The literal
`keymap` must match first; the greedy optional group is attempted before the
group-less alternative. -/
def keymapMatch (fn : String) : Option (Option String × String) :=
  let cs := fn.toList
  if cs.take 6 = "keymap".toList then
    let rest := cs.drop 6
    match keymapSepSearch rest (rest.takeWhile isSepChar).length with
    | some (mid, ext) => some (some mid, ext)
    | none =>
      match rest with
      | '.' :: e :: _ => if e = 'c' ∨ e = 'h' then some (none, String.mk [e]) else none
      | _ => none
  else none

/-- The `renames` generator of `setup_temporary_keyboard`: destination names
(as slash-joined relative paths) for one source filename. -/
def renames (srcName dstName fn : String) : List String :=
  if fn = srcName ++ ".c" then [dstName ++ ".c", fn]
  else if fn = srcName ++ ".h" then [dstName ++ ".h", fn]
  else
    match keymapMatch fn with
    | some (name, ext) =>
      ["keymaps/" ++ name.getD "default" ++ "/keymap." ++ ext]
    | none => [fn]

/-- The symlinks created by `setup_temporary_keyboard` for a directory listing:
one `(destination, source filename)` pair per rename of each file. -/
def staged_links (srcName dstName : String) (files : List String) :
    List (String × String) :=
  files.flatMap fun fn => (renames srcName dstName fn).map fun d => (d, fn)

/-! ## guess_layout_type (qmk_hermit.py lines 287-295) and its caller
(qmk_hermit.py lines 118-121) -/

/-- Index of the first occurrence of `LAYOUT_` in a line, if any. -/
def firstLayoutIdx (cs : List Char) : Option Nat :=
  match cs with
  | [] => none
  | _ :: tl =>
    if ("LAYOUT_".toList).isPrefixOf cs then some 0
    else (firstLayoutIdx tl).map (· + 1)

/-- Index of the last `(` in a line, if any. -/
def lastParenIdx (cs : List Char) : Option Nat :=
  match cs with
  | [] => none
  | c :: tl =>
    match lastParenIdx tl with
    | some i => some (i + 1)
    | none => if c = '(' then some 0 else none

/-- `re.findall(r'LAYOUT_(.+)\s*\(', line)` on one physical line.  The greedy
`(.+)` backtracks to the last `(` of the line, so a line yields at most one
capture: the text strictly between the first `LAYOUT_` and the last `(`,
provided that text is nonempty.  When the first occurrence cannot complete,
no later one can, because the same last `(` is further out of reach. -/
def findLayoutCapture (line : String) : Option String :=
  let cs := line.toList
  match firstLayoutIdx cs, lastParenIdx cs with
  | some p, some m =>
    if p + 8 ≤ m then some (String.mk ((cs.drop (p + 7)).take (m - (p + 7))))
    else none
  | _, _ => none

/-- `find_occurences` over the lines of every globbed source file. -/
def layoutOccurrences (files : List (List String)) : List String :=
  files.flatMap fun lines => lines.filterMap findLayoutCapture

/-- Multiplicity of a string in a list (what `Counter` stores). -/
def countOcc (xs : List String) (x : String) : Nat :=
  xs.count x

/-- One insertion into the distinct-elements accumulator. -/
def insOcc (acc : List String) (x : String) : List String :=
  if x ∈ acc then acc else acc ++ [x]

/-- The distinct elements of a list in first-occurrence order, the insertion
order of the `Counter`. -/
def firstOccs (xs : List String) : List String :=
  xs.foldl insOcc []

/-- One comparison step of `most_common`: keep the incumbent unless the
candidate has a strictly larger count, matching the stable descending sort. -/
def pickStep (xs : List String) (best : Option String) (x : String) : Option String :=
  match best with
  | none => some x
  | some b => if countOcc xs x > countOcc xs b then some x else some b

/-- `Counter(occurrences).most_common(1)` and the `for`-loop around it:
the first-inserted element of maximal count, or Python `None` when there are
no occurrences at all. -/
def mostCommon1 (xs : List String) : Option String :=
  (firstOccs xs).foldl (pickStep xs) none

/-- `guess_layout_type` on the text of the globbed `.c`/`.h` files. -/
def guess_layout_type (files : List (List String)) : Option String :=
  mostCommon1 (layoutOccurrences files)

/-- The caller check in `_main` (qmk_hermit.py lines 118-121):
`if not layout_type: logger.error(...); return 1`.  A falsy guess (Python
`None` or an empty string) aborts the run with exit code 1. -/
def layout_check (guess : Option String) : Except Nat String :=
  match guess with
  | none => Except.error 1
  | some t => if t.isEmpty then Except.error 1 else Except.ok t

/-! ## Artifact collection after a successful build
(qmk_hermit.py lines 190-203; build.py lines 89-102) -/

/-- Python `'...'.replace(os.path.sep, '_')` for a single-character separator. -/
def pyReplaceChar (s : String) (a b : Char) : String :=
  String.mk (s.toList.map fun c => if c = a then b else c)

/-- `expected_fn` in `_main`: the artifact name
`f'{tmp_keyboard_name}_{tmp_keymap_name}.hex'.replace(os.path.sep, '_')`
with the POSIX separator. -/
def expected_fn (kb km : String) : String :=
  pyReplaceChar (kb ++ "_" ++ km ++ ".hex") '/' '_'

/-- The `--into` tail of `_main` in qmk_hermit.py as a function of whether the
expected output file exists: the error lines logged, and `some 1` when `_main`
returns 1 (the missing-artifact branch), `none` when it falls through after
copying. -/
def into_step_hermit (outputIsFile : Bool) : List String × Option Nat :=
  if outputIsFile then ([], none)
  else (["output file not found"], some 1)

/-- The `--into` tail of `main` in build.py: per requested extension it copies
when `temp_output.is_file()` and otherwise logs a warning and keeps going;
`main` then falls off the end, returning Python `None`, so the process exit
status is 0 regardless.  The input is the artifact basename and existence per
extension; the output is the warnings plus that exit status. -/
def into_step_build (artifacts : List (String × Bool)) : List String × Nat :=
  (artifacts.filterMap fun p =>
    if p.2 then none else some ("`" ++ p.1 ++ "` is not a file"), 0)

/-! ## path_hash (qmk_hermit.py lines 360-361, __main__.py lines 77-78)

`hashlib.shake_128(str(path.resolve()).encode()).hexdigest(length // 2)` with
the default `length = 8`.  SHAKE-128 is implemented below from FIPS 202:
Keccak-f[1600] on a 5 by 5 state of 64-bit lanes, sponge with a 168-byte rate,
pad10*1 with domain byte 0x1F.  Lanes are naturals kept below 2^64. -/

/-- The 64-bit lane mask. -/
def mask64 : Nat := 2 ^ 64 - 1

/-- Rotate a 64-bit lane left by `n` (0 ≤ n < 64). -/
def rotl64 (x n : Nat) : Nat :=
  ((x <<< n) ||| (x >>> (64 - n))) &&& mask64

/-- Lane `(x, y)` of a Keccak state stored as a flat 25-element list. -/
def lane (s : List Nat) (x y : Nat) : Nat :=
  s.getD (x + 5 * y) 0

/-- Keccak theta step. -/
def theta (s : List Nat) : List Nat :=
  let c := fun x => lane s x 0 ^^^ lane s x 1 ^^^ lane s x 2 ^^^ lane s x 3 ^^^ lane s x 4
  let d := fun x => c ((x + 4) % 5) ^^^ rotl64 (c ((x + 1) % 5)) 1
  (List.range 25).map fun i => s.getD i 0 ^^^ d (i % 5)

/-- Keccak rotation offsets, indexed as `rhoOffsets[x][y]`. -/
def rhoOffsets : List (List Nat) :=
  [[0, 36, 3, 41, 18],
   [1, 44, 10, 45, 2],
   [62, 6, 43, 15, 61],
   [28, 55, 25, 21, 56],
   [27, 20, 39, 8, 14]]

/-- Rotation offset for lane `(x, y)`. -/
def rhoOff (x y : Nat) : Nat :=
  (rhoOffsets.getD x []).getD y 0

/-- Keccak rho and pi steps combined: the target lane `(X, Y)` receives the
rotated source lane `(X + 3Y mod 5, X)`, the inverse of
`B[y][(2x + 3y) mod 5] = rot(A[x][y], r[x][y])`. -/
def rhoPi (s : List Nat) : List Nat :=
  (List.range 25).map fun i =>
    let bx := i % 5
    let by_ := i / 5
    let sx := (bx + 3 * by_) % 5
    let sy := bx
    rotl64 (lane s sx sy) (rhoOff sx sy)

/-- Keccak chi step. -/
def chi (s : List Nat) : List Nat :=
  (List.range 25).map fun i =>
    let x := i % 5
    let y := i / 5
    lane s x y ^^^ ((lane s ((x + 1) % 5) y ^^^ mask64) &&& lane s ((x + 2) % 5) y)

/-- Keccak iota step: fold the round constant into lane `(0, 0)`. -/
def iota (rc : Nat) (s : List Nat) : List Nat :=
  (List.range 25).map fun i =>
    if i = 0 then s.getD 0 0 ^^^ rc else s.getD i 0

/-- The byte-wide LFSR of FIPS 202 section 3.2.5 after `t` steps, used to
derive the round constants. -/
def rcLfsr : Nat → Nat
  | 0 => 1
  | t + 1 =>
    let r := rcLfsr t
    ((r <<< 1) ^^^ ((r >>> 7) * 0x71)) &&& 0xFF

/-- Bit `rc(t)` of FIPS 202. -/
def rcBit (t : Nat) : Nat :=
  rcLfsr t &&& 1

/-- Round constant of round `ir`: bit `rc(j + 7 ir)` lands at lane position
`2 ^ j - 1` for `j` up to 6. -/
def roundConst (ir : Nat) : Nat :=
  (List.range 7).foldl (fun acc j => acc ||| (rcBit (j + 7 * ir) <<< (2 ^ j - 1))) 0

/-- The 24 round constants of Keccak-f[1600]. -/
def keccakRCs : List Nat :=
  (List.range 24).map roundConst

/-- One Keccak round. -/
def keccakRound (s : List Nat) (rc : Nat) : List Nat :=
  iota rc (chi (rhoPi (theta s)))

/-- The Keccak-f[1600] permutation. -/
def keccakF (s : List Nat) : List Nat :=
  keccakRCs.foldl keccakRound s

/-- The SHAKE-128 rate in bytes. -/
def rateBytes : Nat := 168

/-- FIPS 202 pad10*1 with the SHAKE domain byte 0x1F; when only one byte of
room remains it merges with the final 0x80 bit into 0x9F. -/
def shakePad (msg : List Nat) : List Nat :=
  let q := rateBytes - msg.length % rateBytes
  if q = 1 then msg ++ [0x9F]
  else msg ++ (0x1F :: List.replicate (q - 2) 0 ++ [0x80])

/-- Little-endian interpretation of (up to) eight bytes as a lane. -/
def bytesToLane (bs : List Nat) : Nat :=
  bs.foldr (fun b acc => (acc <<< 8) ||| (b &&& 255)) 0

/-- Absorb one rate-sized block, then permute. -/
def absorbBlock (s : List Nat) (block : List Nat) : List Nat :=
  keccakF ((List.range 25).map fun i =>
    s.getD i 0 ^^^
      (if i < rateBytes / 8 then bytesToLane ((block.drop (8 * i)).take 8) else 0))

/-- Split a padded message into rate-sized blocks; the fuel is the length,
which is enough because every step removes at least one byte. -/
def rateChunks : Nat → List Nat → List (List Nat)
  | 0, _ => []
  | _ + 1, [] => []
  | fuel + 1, l => l.take rateBytes :: rateChunks fuel (l.drop rateBytes)

/-- Serialize the state as little-endian bytes, lane by lane. -/
def laneToBytes (v : Nat) : List Nat :=
  (List.range 8).map fun j => (v >>> (8 * j)) &&& 255

/-- The state as its 200-byte serialization. -/
def stateBytes (s : List Nat) : List Nat :=
  (List.range 25).flatMap fun i => laneToBytes (s.getD i 0)

/-- SHAKE-128 output bytes for an output short enough (at most the rate) that
a single squeeze suffices, which covers the four bytes used here. -/
def shake128Bytes (msg : List Nat) (outLen : Nat) : List Nat :=
  let padded := shakePad msg
  let s := (rateChunks padded.length padded).foldl absorbBlock (List.replicate 25 0)
  (stateBytes s).take outLen

/-- The sixteen lowercase hexadecimal digits. -/
def hexDigits : List Char := "0123456789abcdef".toList

/-- One hexadecimal digit character. -/
def hexChar (n : Nat) : Char :=
  hexDigits.getD (n % 16) '0'

/-- The two hexadecimal characters of one byte (`%02x`). -/
def byteHex (b : Nat) : List Char :=
  [hexChar (b / 16 % 16), hexChar (b % 16)]

/-- Lowercase hex digest of a byte list, Python `hexdigest`. -/
def bytesToHexStr (bs : List Nat) : String :=
  String.mk (bs.flatMap byteHex)

/-- UTF-8 encoding of one code point, Python `str.encode()` per character. -/
def utf8Enc (c : Nat) : List Nat :=
  if c < 0x80 then [c]
  else if c < 0x800 then
    [0xC0 ||| (c >>> 6), 0x80 ||| (c &&& 0x3F)]
  else if c < 0x10000 then
    [0xE0 ||| (c >>> 12), 0x80 ||| ((c >>> 6) &&& 0x3F), 0x80 ||| (c &&& 0x3F)]
  else
    [0xF0 ||| (c >>> 18), 0x80 ||| ((c >>> 12) &&& 0x3F),
     0x80 ||| ((c >>> 6) &&& 0x3F), 0x80 ||| (c &&& 0x3F)]

/-- Python `str.encode()`: UTF-8 bytes of a string. -/
def strBytes (s : String) : List Nat :=
  s.toList.flatMap fun c => utf8Enc c.toNat

/-- `path_hash(path, length=8)`: the hex digest of the first `8 // 2 = 4`
bytes of SHAKE-128 over the UTF-8 encoding of the resolved path string.
The `Path.resolve()` call is filesystem I/O; the argument here is the already
canonical path string it produces. -/
def path_hash (resolvedPath : String) : String :=
  bytesToHexStr (shake128Bytes (strBytes resolvedPath) 4)

/-! ## Agreement condition between the two parse_rulesmk copies -/

/-- Whether a list of logical lines never applies `?=` to a key that is absent
from the running mapping, advancing the state with the build.py step (under
this condition both steps coincide, so the choice does not matter). -/
def qeqSafeLines (m : RulesMap) : List String → Bool
  | [] => true
  | l :: ls =>
    match matchAssign l with
    | some (name, MkOp.qeq, _) =>
      (pyLookup m name).isSome && qeqSafeLines (stepBuild m l) ls
    | _ => qeqSafeLines (stepBuild m l) ls

/-- The agreement condition on raw input lines and an initial mapping. -/
def qeqSafe (lines : List String) (init : RulesMap) : Bool :=
  qeqSafeLines init (makefile_lines lines)

/-! # Theorems -/

/-! ## Helper lemmas -/

theorem pyLookup_setKey_self (m : RulesMap) (k : String) (v : Option String) :
    pyLookup (setKey m k v) k = some v := by
  induction m with
  | nil => simp [setKey, pyLookup]
  | cons p m ih =>
    obtain ⟨k0, w⟩ := p
    by_cases h : k0 = k <;> simp [setKey, pyLookup, h, ih]

theorem stepHermit_eq_stepBuild_of_nomatch {l : String} (m : RulesMap)
    (hm : matchAssign l = none) : stepHermit m l = stepBuild m l := by
  simp [stepHermit, stepBuild, hm]

theorem stepHermit_eq_stepBuild_of_present {l n v : String} {op : MkOp}
    {old : Option String} (m : RulesMap)
    (hm : matchAssign l = some (n, op, v)) (hl : pyLookup m n = some old) :
    stepHermit m l = stepBuild m l := by
  simp [stepHermit, stepBuild, hm, hl]

theorem stepHermit_eq_stepBuild_of_not_qeq {l n v : String} {op : MkOp}
    (m : RulesMap) (hm : matchAssign l = some (n, op, v)) (hop : op ≠ MkOp.qeq) :
    stepHermit m l = stepBuild m l := by
  cases hl : pyLookup m n with
  | some old => exact stepHermit_eq_stepBuild_of_present m hm hl
  | none =>
    cases op with
    | qeq => exact absurd rfl hop
    | eq => simp [stepHermit, stepBuild, hm, hl, applyOp]
    | coloneq => simp [stepHermit, stepBuild, hm, hl, applyOp]
    | pluseq => simp [stepHermit, stepBuild, hm, hl, applyOp, truthy]

theorem foldl_step_agree (ls : List String) :
    ∀ init : RulesMap, qeqSafeLines init ls = true →
      ls.foldl stepHermit init = ls.foldl stepBuild init := by
  induction ls with
  | nil => intro init _; rfl
  | cons l ls ih =>
    intro init h
    have hstep : stepHermit init l = stepBuild init l ∧
        qeqSafeLines (stepBuild init l) ls = true := by
      cases hm : matchAssign l with
      | none =>
        rw [qeqSafeLines, hm] at h
        exact ⟨stepHermit_eq_stepBuild_of_nomatch init hm, h⟩
      | some t =>
        obtain ⟨n, op, v⟩ := t
        cases op with
        | qeq =>
          rw [qeqSafeLines, hm] at h
          rw [Bool.and_eq_true] at h
          obtain ⟨hsome, hrest⟩ := h
          cases hl : pyLookup init n with
          | none => rw [hl] at hsome; simp at hsome
          | some old =>
            exact ⟨stepHermit_eq_stepBuild_of_present init hm hl, hrest⟩
        | eq =>
          rw [qeqSafeLines, hm] at h
          exact ⟨stepHermit_eq_stepBuild_of_not_qeq init hm (by simp), h⟩
        | coloneq =>
          rw [qeqSafeLines, hm] at h
          exact ⟨stepHermit_eq_stepBuild_of_not_qeq init hm (by simp), h⟩
        | pluseq =>
          rw [qeqSafeLines, hm] at h
          exact ⟨stepHermit_eq_stepBuild_of_not_qeq init hm (by simp), h⟩
    rw [List.foldl_cons, List.foldl_cons, hstep.1]
    exact ih (stepBuild init l) hstep.2

/-! ## Claim C1 -/

/-- C1: the claim states that `?=` sets a key only when it has no value in the
cascade so far and that the example cascade resolves to A maps to "1 2" and
B maps to "3".  The code disagrees with the claimed make semantics in both
copies: the `?=` entry of the `ops` table is `lambda old, new: new if old else
old`, the inverse of set-if-unset.  Evaluating the claimed cascade, the direct
entry point stores Python `None` for B and the container build script stores
"4"; neither yields the claimed "3".  The claim describes the clearly intended
behavior (replaying the build tool's assignment semantics), so this is a code
bug. -/
theorem qeq_cascade_code_eval :
    parse_rulesmk_hermit ["A += 2", "B ?= 3", "B ?= 4"]
        (parse_rulesmk_hermit ["A = 1"] []) = [("A", some "1 2"), ("B", none)] ∧
    parse_rulesmk_build ["A += 2", "B ?= 3", "B ?= 4"]
        (parse_rulesmk_build ["A = 1"] []) = [("A", some "1 2"), ("B", some "4")] ∧
    parse_rulesmk_hermit ["A += 2", "B ?= 3", "B ?= 4"]
        (parse_rulesmk_hermit ["A = 1"] []) ≠ [("A", some "1 2"), ("B", some "3")] ∧
    parse_rulesmk_build ["A += 2", "B ?= 3", "B ?= 4"]
        (parse_rulesmk_build ["A = 1"] []) ≠ [("A", some "1 2"), ("B", some "3")] := by
  refine ⟨by decide, by decide, by decide, by decide⟩

/-! ## Claim C2 -/

/-- C2 counterexample: the two copies of `parse_rulesmk` are not extensionally
equal.  On the single line `B ?= 3` with an empty initial mapping, the direct
entry point stores Python `None` for B while the container build script stores
"3", because only the latter guards the `ops` call with `name in parsed`. -/
theorem parse_rulesmk_disagreement :
    ¬ (parse_rulesmk_hermit ["B ?= 3"] [] = parse_rulesmk_build ["B ?= 3"] []) := by
  decide

/-- C2 amended: the two copies of `parse_rulesmk` return equal mappings for
every input in which no `?=` assignment is applied to a key that is absent
from the running mapping at that point; the counterexample shows the
unconditional claim fails exactly on that case. -/
theorem parse_rulesmk_agreement (lines : List String) (init : RulesMap)
    (h : qeqSafe lines init = true) :
    parse_rulesmk_hermit lines init = parse_rulesmk_build lines init :=
  foldl_step_agree (makefile_lines lines) init h

/-- C2 witness: a concrete cascade satisfying the agreement condition, with a
`?=` line whose key is already present. -/
theorem parse_rulesmk_agreement_witness :
    qeqSafe ["A = 1", "A ?= 2"] [] = true ∧
    parse_rulesmk_hermit ["A = 1", "A ?= 2"] [] =
      parse_rulesmk_build ["A = 1", "A ?= 2"] [] :=
  ⟨by decide, parse_rulesmk_agreement ["A = 1", "A ?= 2"] [] (by decide)⟩

/-! ## Claim C3 -/

/-- C3: the claim states that a line ending in a backslash is joined to the
next physical line with a newline and that the assignment grammar is matched
against the joined logical line.  The `continued_lines` generator computes
that joined line in `cont_line` but executes `yield line`, so the joined line
is never emitted: for the input below the first logical line disappears
entirely and only `B = 2` is matched, leaving no entry for A.  The dead
`cont_line` accumulator makes the intent clear, so this is a code bug. -/
theorem continuation_join_code_eval :
    makefile_lines ["A = 1 \\", "B = 2"] = ["B = 2"] ∧
    parse_rulesmk_hermit ["A = 1 \\", "B = 2"] [] = [("B", some "2")] ∧
    pyLookup (parse_rulesmk_hermit ["A = 1 \\", "B = 2"] []) "A" = none := by
  refine ⟨by decide, by decide, by decide⟩

/-! ## Claim C10 -/

/-- C10: in the direct entry point, a key whose first matched assignment uses
`?=` is stored with Python `None`; a later `keyboard_rules.get('BOOTLOADER',
'')` then returns that `None` rather than the default, and composing a
side-specific flash target raises on `.lower()`.  Stated generally for any
matching line over any mapping lacking the key, plus the concrete BOOTLOADER
instance end to end. -/
theorem qeq_null_then_flash_raises
    (m : RulesMap) (l n v kb km : String) (ex : List String)
    (hm : matchAssign l = some (n, MkOp.qeq, v))
    (habs : pyLookup m n = none) :
    stepHermit m l = setKey m n none ∧
    pyLookup (stepHermit m l) n = some none ∧
    (n = "BOOTLOADER" →
      bootloaderLookup (stepHermit m l) = none ∧
      make_target kb km FlashArg.left (stepHermit m l) ex =
        Except.error "AttributeError: NoneType has no attribute lower" ∧
      make_target kb km FlashArg.right (stepHermit m l) ex =
        Except.error "AttributeError: NoneType has no attribute lower") ∧
    parse_rulesmk_hermit ["BOOTLOADER ?= caterina"] [] = [("BOOTLOADER", none)] ∧
    make_target "kb" "km" FlashArg.left
        (parse_rulesmk_hermit ["BOOTLOADER ?= caterina"] []) [] =
      Except.error "AttributeError: NoneType has no attribute lower" := by
  have hstep : stepHermit m l = setKey m n none := by
    simp [stepHermit, hm, habs, applyOp, truthy]
  have hlook : pyLookup (stepHermit m l) n = some none := by
    rw [hstep]; exact pyLookup_setKey_self m n none
  refine ⟨hstep, hlook, ?_, by decide, by rfl⟩
  intro hb
  subst hb
  have hboot : bootloaderLookup (stepHermit m l) = none := by
    simp [bootloaderLookup, hlook]
  refine ⟨hboot, ?_, ?_⟩ <;> simp [make_target, hboot]

/-- C10 witness: the general part instantiated at the concrete line. -/
theorem qeq_null_then_flash_raises_witness :
    matchAssign "BOOTLOADER ?= atmel-dfu" =
      some ("BOOTLOADER", MkOp.qeq, "atmel-dfu") ∧
    pyLookup [] "BOOTLOADER" = none ∧
    stepHermit [] "BOOTLOADER ?= atmel-dfu" = [("BOOTLOADER", none)] ∧
    make_target "kb" "km" FlashArg.left (stepHermit [] "BOOTLOADER ?= atmel-dfu") [] =
      Except.error "AttributeError: NoneType has no attribute lower" := by
  have h := qeq_null_then_flash_raises [] "BOOTLOADER ?= atmel-dfu" "BOOTLOADER"
    "atmel-dfu" "kb" "km" [] (by decide) (by decide)
  exact ⟨by decide, by decide, h.1, ((h.2.2.1 rfl).2).1⟩

/-! ## Claim C4 -/

/-- C4: keyboard staging for a directory declared `foo` holding `foo.c`,
`foo.h`, `keymap.c`, `keymap_gamer.c` links the primary pair under the hash
name while also retaining the original stems, relocates the keymap files to
`keymaps/default/keymap.c` and `keymaps/gamer/keymap.c`, and passes every
filename matching none of the patterns through unchanged. -/
theorem keyboard_staging_renames :
    (∀ hash : String,
      staged_links "foo" hash ["foo.c", "foo.h", "keymap.c", "keymap_gamer.c"] =
        [(hash ++ ".c", "foo.c"), ("foo.c", "foo.c"),
         (hash ++ ".h", "foo.h"), ("foo.h", "foo.h"),
         ("keymaps/default/keymap.c", "keymap.c"),
         ("keymaps/gamer/keymap.c", "keymap_gamer.c")]) ∧
    (∀ hash fn : String, fn ≠ "foo.c" → fn ≠ "foo.h" → keymapMatch fn = none →
      renames "foo" hash fn = [fn]) := by
  constructor
  · intro hash; rfl
  · intro hash fn h1 h2 h3
    have e1 : ("foo" ++ ".c" : String) = "foo.c" := rfl
    have e2 : ("foo" ++ ".h" : String) = "foo.h" := rfl
    simp [renames, e1, e2, h1, h2, h3]

/-- C4 witness: a file matching none of the patterns passes through. -/
theorem keyboard_staging_renames_witness :
    ("readme.md" : String) ≠ "foo.c" ∧ ("readme.md" : String) ≠ "foo.h" ∧
    keymapMatch "readme.md" = none ∧
    renames "foo" "cafe0123" "readme.md" = ["readme.md"] :=
  ⟨by decide, by decide, by decide,
   keyboard_staging_renames.2 "cafe0123" "readme.md" (by decide) (by decide) (by decide)⟩

/-! ## Claim C5 -/

/-- C5: with a side-naming flash intent the BOOTLOADER value is inspected
case-insensitively, a dfu substring selects the dfu split target for the
requested side, a caterina substring the avrdude one, and anything else falls
back to the generic `flash` fragment with exactly one warning; the keyboard
and keymap identities come first and the fragments are joined with colons.
The two concrete conjuncts are the testable examples of the claim. -/
theorem make_target_split_flash :
    (∀ (kb km b : String) (r : RulesMap) (ex : List String) (right : Bool),
      bootloaderLookup r = some b →
      make_target kb km (if right then FlashArg.right else FlashArg.left) r ex =
        Except.ok
          ([kb, km,
            if containsSub (pyLower b) "dfu" then
              if right then "dfu-split-right" else "dfu-split-left"
            else if containsSub (pyLower b) "caterina" then
              if right then "avrdude-split-right" else "avrdude-split-left"
            else "flash"] ++ ex.map lstripColon,
           if containsSub (pyLower b) "dfu" ∨ containsSub (pyLower b) "caterina" then
             []
           else [noSplitWarning (pyLower b)])) ∧
    make_target_str "kb" "km" FlashArg.right [("BOOTLOADER", some "atmel-dfu")] [] =
      Except.ok ("kb:km:dfu-split-right", []) ∧
    make_target_str "kb" "km" FlashArg.left [("BOOTLOADER", some "unknown-x")] [] =
      Except.ok ("kb:km:flash", [noSplitWarning "unknown-x"]) := by
  refine ⟨?_, by rfl, by rfl⟩
  intro kb km b r ex right h
  cases right <;>
    simp only [make_target, h, if_true, if_false, Bool.false_eq_true] <;>
    split_ifs <;>
    simp_all

/-- C5 witness: the general part at a mixed-case caterina bootloader. -/
theorem make_target_split_flash_witness :
    bootloaderLookup [("BOOTLOADER", some "Caterina")] = some "Caterina" ∧
    make_target "kb" "km" FlashArg.right [("BOOTLOADER", some "Caterina")] [] =
      Except.ok (["kb", "km", "avrdude-split-right"], []) := by
  have h := make_target_split_flash.1 "kb" "km" "Caterina"
    [("BOOTLOADER", some "Caterina")] [] true (by rfl)
  exact ⟨by rfl, by simpa using h⟩

/-! ## Claim C7 -/

/-- C7 counterexample: in the container build script a missing expected
artifact is not a terminal non-zero-exit error; the script logs a warning and
`main` falls through, so the process exit status is 0. -/
theorem artifact_missing_build_exit_zero :
    into_step_build [("kb_default.hex", false)] =
      (["`kb_default.hex` is not a file"], 0) := by
  rfl

/-- C7 amended: in the direct entry point an absent expected artifact after a
successful build is a terminal error, reported once, returning exit code 1;
in the container build script each absent artifact only produces a warning and
the exit status stays 0.  The artifact name replaces path separators with
underscores as claimed. -/
theorem artifact_missing_behavior :
    into_step_hermit false = (["output file not found"], some 1) ∧
    (into_step_hermit false).1.length = 1 ∧
    into_step_hermit true = ([], none) ∧
    (∀ fn : String,
      into_step_build [(fn, false)] = (["`" ++ fn ++ "` is not a file"], 0)) ∧
    expected_fn "a/b" "default" = "a_b_default.hex" := by
  exact ⟨rfl, rfl, rfl, fun fn => rfl, by decide⟩

/-! ## Claim C8 -/

/-- C8 counterexample: for the namespace `a/b/c` the candidate chain is not
the three claimed locations; `reversed([keyboard_name, *parents])` also
contains the `.` parent, so `keyboards/rules.mk` at the namespace root is
consulted first. -/
theorem rules_candidates_extra_root :
    find_rules_candidates ["a", "b", "c"] ≠
      [["keyboards", "a", "rules.mk"],
       ["keyboards", "a", "b", "rules.mk"],
       ["keyboards", "a", "b", "c", "rules.mk"]] := by
  decide

/-- C8 amended: the direct entry point consults `keyboards/rules.mk` first and
then `a`, `a/b`, `a/b/c` in that order, skipping nonexistent candidates
without substitution (the consulted files are always an order-preserving
sublist of the candidates); the container build script walks the parents of
the absolute staged keyboard directory, so its chain additionally climbs to
the filesystem root. -/
theorem rules_candidates_order :
    find_rules_candidates ["a", "b", "c"] =
      [["keyboards", "rules.mk"],
       ["keyboards", "a", "rules.mk"],
       ["keyboards", "a", "b", "rules.mk"],
       ["keyboards", "a", "b", "c", "rules.mk"]] ∧
    (∀ existsFile : List String → Bool,
      List.Sublist (find_rules existsFile ["a", "b", "c"])
        (find_rules_candidates ["a", "b", "c"])) ∧
    build_rules_candidates ["home", "qmkuser", "qmk_firmware", "keyboards", "a", "b", "c"] =
      [["rules.mk"],
       ["home", "rules.mk"],
       ["home", "qmkuser", "rules.mk"],
       ["home", "qmkuser", "qmk_firmware", "rules.mk"],
       ["home", "qmkuser", "qmk_firmware", "keyboards", "rules.mk"],
       ["home", "qmkuser", "qmk_firmware", "keyboards", "a", "rules.mk"],
       ["home", "qmkuser", "qmk_firmware", "keyboards", "a", "b", "rules.mk"],
       ["home", "qmkuser", "qmk_firmware", "keyboards", "a", "b", "c", "rules.mk"]] := by
  refine ⟨by decide, ?_, by decide⟩
  intro existsFile
  exact List.filter_sublist _

/-! ## Claim C6 -/

theorem mem_foldl_insOcc (xs : List String) :
    ∀ (acc : List String) (y : String),
      y ∈ xs.foldl insOcc acc ↔ y ∈ acc ∨ y ∈ xs := by
  induction xs with
  | nil => simp
  | cons x l ih =>
    intro acc y
    rw [List.foldl_cons, ih]
    by_cases h : x ∈ acc
    · simp only [insOcc, if_pos h, List.mem_cons]
      constructor
      · rintro (hy | hy)
        · exact Or.inl hy
        · exact Or.inr (Or.inr hy)
      · rintro (hy | hy | hy)
        · exact Or.inl hy
        · exact Or.inl (hy ▸ h)
        · exact Or.inr hy
    · simp only [insOcc, if_neg h, List.mem_append, List.mem_singleton, List.mem_cons]
      tauto

theorem mem_firstOccs (xs : List String) (y : String) :
    y ∈ firstOccs xs ↔ y ∈ xs := by
  rw [firstOccs, mem_foldl_insOcc]
  simp

theorem foldl_pickStep_max (xs : List String) (l : List String) :
    ∀ b : String, ∃ r, l.foldl (pickStep xs) (some b) = some r ∧
      (r = b ∨ r ∈ l) ∧ countOcc xs b ≤ countOcc xs r ∧
      ∀ x ∈ l, countOcc xs x ≤ countOcc xs r := by
  induction l with
  | nil => exact fun b => ⟨b, rfl, Or.inl rfl, le_refl _, by simp⟩
  | cons x l ih =>
    intro b
    rw [List.foldl_cons]
    by_cases h : countOcc xs x > countOcc xs b
    · rw [show pickStep xs (some b) x = some x from by simp [pickStep, h]]
      obtain ⟨r, hr, hmem, hle, hall⟩ := ih x
      refine ⟨r, hr, ?_, le_trans (le_of_lt h) hle, ?_⟩
      · rcases hmem with h1 | h1
        · exact Or.inr (h1 ▸ List.mem_cons_self x l)
        · exact Or.inr (List.mem_cons_of_mem x h1)
      · intro z hz
        rcases List.mem_cons.mp hz with h1 | h1
        · exact h1 ▸ hle
        · exact hall z h1
    · rw [show pickStep xs (some b) x = some b from by simp [pickStep, h]]
      obtain ⟨r, hr, hmem, hle, hall⟩ := ih b
      refine ⟨r, hr, ?_, hle, ?_⟩
      · rcases hmem with h1 | h1
        · exact Or.inl h1
        · exact Or.inr (List.mem_cons_of_mem x h1)
      · intro z hz
        rcases List.mem_cons.mp hz with h1 | h1
        · exact h1 ▸ le_trans (Nat.le_of_not_lt h) hle
        · exact hall z h1

theorem mostCommon1_max (xs : List String) (v : String)
    (h : mostCommon1 xs = some v) :
    0 < countOcc xs v ∧ ∀ w, countOcc xs w ≤ countOcc xs v := by
  rw [mostCommon1] at h
  cases hf : firstOccs xs with
  | nil => rw [hf] at h; simp at h
  | cons x l =>
    rw [hf, List.foldl_cons,
      show pickStep xs none x = some x from rfl] at h
    obtain ⟨r, hr, hmem, hle, hall⟩ := foldl_pickStep_max xs l x
    rw [hr] at h
    injection h with hv
    subst hv
    constructor
    · have hvmem : r ∈ firstOccs xs := by
        rw [hf]
        rcases hmem with h1 | h1
        · exact h1 ▸ List.mem_cons_self x l
        · exact List.mem_cons_of_mem x h1
      exact List.count_pos_iff.mpr ((mem_firstOccs xs r).mp hvmem)
    · intro w
      by_cases hw : w ∈ xs
      · have hw2 : w ∈ firstOccs xs := (mem_firstOccs xs w).mpr hw
        rw [hf] at hw2
        rcases List.mem_cons.mp hw2 with h1 | h1
        · exact h1 ▸ hle
        · exact hall w h1
      · rw [show countOcc xs w = 0 from List.count_eq_zero_of_not_mem hw]
        exact Nat.zero_le _

/-- C6: layout-type inference tallies the captures of the `LAYOUT_<variant>(`
pattern across all file lines and returns a variant of maximal tally; the
three-to-one example infers `60_ansi`, and when no occurrence exists the guess
is Python `None` and the caller aborts with exit code 1. -/
theorem layout_type_inference :
    guess_layout_type
        [["LAYOUT_60_ansi(", "LAYOUT_60_ansi("], ["LAYOUT_all(", "LAYOUT_60_ansi("]] =
      some "60_ansi" ∧
    countOcc (layoutOccurrences
        [["LAYOUT_60_ansi(", "LAYOUT_60_ansi("], ["LAYOUT_all(", "LAYOUT_60_ansi("]])
      "60_ansi" = 3 ∧
    countOcc (layoutOccurrences
        [["LAYOUT_60_ansi(", "LAYOUT_60_ansi("], ["LAYOUT_all(", "LAYOUT_60_ansi("]])
      "all" = 1 ∧
    (∀ files : List (List String), layoutOccurrences files = [] →
      guess_layout_type files = none ∧
      layout_check (guess_layout_type files) = Except.error 1) ∧
    (∀ (files : List (List String)) (v : String), guess_layout_type files = some v →
      0 < countOcc (layoutOccurrences files) v ∧
      ∀ w : String,
        countOcc (layoutOccurrences files) w ≤ countOcc (layoutOccurrences files) v) := by
  refine ⟨by decide, by decide, by decide, ?_, ?_⟩
  · intro files h
    rw [guess_layout_type, h]
    exact ⟨rfl, rfl⟩
  · intro files v h
    rw [guess_layout_type] at h
    exact mostCommon1_max _ v h

/-- C6 witness: the zero-occurrence case aborts, and a singleton occurrence is
inferred with positive count. -/
theorem layout_type_inference_witness :
    layoutOccurrences [["no macros"]] = [] ∧
    guess_layout_type [["no macros"]] = none ∧
    layout_check (guess_layout_type [["no macros"]]) = Except.error 1 ∧
    guess_layout_type [["LAYOUT_60_ansi("]] = some "60_ansi" ∧
    0 < countOcc (layoutOccurrences [["LAYOUT_60_ansi("]]) "60_ansi" := by
  refine ⟨by decide, ?_, ?_, by decide, ?_⟩
  · exact (layout_type_inference.2.2.2.1 _ (by decide)).1
  · exact (layout_type_inference.2.2.2.1 _ (by decide)).2
  · exact (layout_type_inference.2.2.2.2 _ _ (by decide)).1

/-! ## Claim C9 -/

theorem flatMap_const_length {α β : Type} (n : Nat) (f : α → List β) :
    ∀ l : List α, (∀ a ∈ l, (f a).length = n) → (l.flatMap f).length = n * l.length := by
  intro l
  induction l with
  | nil => simp
  | cons a l ih =>
    intro h
    rw [List.flatMap_cons, List.length_append, ih (fun b hb => h b (List.mem_cons_of_mem a hb)),
      h a (List.mem_cons_self a l), List.length_cons]
    ring

theorem laneToBytes_length (v : Nat) : (laneToBytes v).length = 8 := by
  simp [laneToBytes]

theorem stateBytes_length (s : List Nat) : (stateBytes s).length = 200 := by
  rw [stateBytes, flatMap_const_length 8 _ _ (fun a _ => laneToBytes_length _)]
  simp

theorem shake128Bytes_length (msg : List Nat) : (shake128Bytes msg 4).length = 4 := by
  rw [shake128Bytes]
  rw [List.length_take, stateBytes_length]
  decide

theorem bytesToHexStr_length (bs : List Nat) :
    (bytesToHexStr bs).length = 2 * bs.length := by
  rw [bytesToHexStr]
  exact flatMap_const_length 2 byteHex bs (fun a _ => rfl)

theorem path_hash_length (p : String) : (path_hash p).length = 8 := by
  rw [path_hash, bytesToHexStr_length, shake128Bytes_length]

theorem hexChar_mem (n : Nat) : hexChar n ∈ hexDigits := by
  have hlt : n % 16 < 16 := Nat.mod_lt _ (by norm_num)
  have hall : ∀ k : Fin 16, hexDigits.getD k.val '0' ∈ hexDigits := by decide
  exact hall ⟨n % 16, hlt⟩

theorem path_hash_hex (p : String) : ∀ c ∈ (path_hash p).toList, c ∈ hexDigits := by
  intro c hc
  have hc2 : c ∈ (shake128Bytes (strBytes p) 4).flatMap byteHex := hc
  obtain ⟨b, _, hcb⟩ := List.mem_flatMap.mp hc2
  simp only [byteHex, List.mem_cons, List.not_mem_nil, or_false] at hcb
  rcases hcb with h1 | h1 <;> rw [h1] <;> exact hexChar_mem _

/-- C9: `path_hash` is a pure, deterministic function of the canonical path
string, producing exactly eight lowercase hexadecimal characters, namely the
hex digest of the first four bytes of SHAKE-128 over the UTF-8 encoding of
that string. -/
theorem path_hash_deterministic_hex :
    (∀ p q : String, p = q → path_hash p = path_hash q) ∧
    (∀ p : String, (path_hash p).length = 8) ∧
    (∀ p : String, ∀ c ∈ (path_hash p).toList, c ∈ hexDigits) ∧
    (∀ p : String,
      path_hash p = bytesToHexStr (shake128Bytes (strBytes p) 4) ∧
      (shake128Bytes (strBytes p) 4).length = 4) :=
  ⟨fun _ _ h => h ▸ rfl, path_hash_length, path_hash_hex,
   fun _ => ⟨rfl, shake128Bytes_length _⟩⟩

/-- C9 witness: the theorem applied at a concrete canonical path. -/
theorem path_hash_deterministic_hex_witness :
    path_hash "/tmp/qmk-hermit" = path_hash "/tmp/qmk-hermit" ∧
    (path_hash "/tmp/qmk-hermit").length = 8 :=
  ⟨path_hash_deterministic_hex.1 "/tmp/qmk-hermit" "/tmp/qmk-hermit" rfl,
   path_hash_deterministic_hex.2.1 "/tmp/qmk-hermit"⟩

set_option maxRecDepth 10000 in
/-- Sanity check of the SHAKE-128 implementation against the FIPS 202 test
vector for the empty message, whose four leading output bytes are 7f 9c 2b a4. -/
theorem shake128_empty_test_vector : path_hash "" = "7f9c2ba4" := by
  decide

end QmkHermit
